import Mathlib

deriving instance DecidableEq for Except

/-!
Shallow embedding of the café ordering application's core subsystem
(order lifecycle, menu availability, cross-consistency cancellation,
rating aggregation), translated from:

  * src/app/api/orders/route.ts            (GET = listing + auto-expiry sweep, POST = create)
  * src/unnamed/part_010                   (menu/[id] PATCH/DELETE; orders/[id] PATCH/PUT/DELETE)
  * src/unnamed/part_009                   (menu GET with 09:00 daily restoration, POST)
  * src/app/api/ratings/route.ts           (POST rating, updateMenuItemAverages)
  * src/models/Order.ts, src/models/MenuItem (part_004), src/models/Rating.ts,
    lib/notifications (createNotification)

Conventions of the embedding:
  * The MongoDB collections become lists inside a `DB` record; a document id is a `String`.
  * Timestamps are milliseconds since the epoch as `Nat` (JS `Date.now()`), with JS
    subtraction that may go negative matched by truncated `Nat` subtraction: both sides
    classify a negative/zero elapsed time as "within the window".
  * JS numbers that the routes treat as decimals (prices, ratings) are `Rat`, avoiding
    floating point; quantities are `Nat` (schema `min: 1`).
  * A decoded JWT is a `Token`; `none` stands for a missing/invalid/expired bearer token
    (jwt.verify throwing), which every route maps to a 401 before touching data.
  * `createNotification` swallows its own failures (returns null); the possibility of a
    failed save is modelled by a boolean oracle passed to the operation.
  * Mongoose `timestamps: true` maintains `updatedAt` on MenuItem; the code reads it only
    for menu items (the 09:00 restoration filter), so only `MenuItem` carries `updatedAt`.
    Orders carry `createdAt`, the only timestamp the order routes read.
-/

namespace Cafe

/-- Order status enum from src/models/Order.ts
(`enum: ["pending", "accepted", "rejected", "completed", "cancelled"]`). -/
inductive OrderStatus
  | pending
  | accepted
  | rejected
  | completed
  | cancelled
deriving DecidableEq, Repr

/-- Notification categories from lib/notifications `createNotification`'s type union. -/
inductive NotifType
  | order_placed
  | order_accepted
  | order_rejected
  | order_completed
  | order_cancelled
deriving DecidableEq, Repr

/-- Error taxonomy: each constructor stands for one structured error response of the
routes (the HTTP status and message are noted at each return site). -/
inductive ApiError
  | unauthorized   -- 401: missing/invalid bearer token
  | forbidden      -- 403: wrong role or not the owner
  | notFound       -- 404: referenced document absent
  | validation     -- 400: malformed/missing input
  | rangeError     -- 400: rating outside 1..5
  | windowExpired  -- 400: "Cancellation window has expired..."
deriving DecidableEq, Repr

/-- Decoded JWT payload: the routes read `decoded.userId` and `decoded.role`. -/
structure Token where
  userId : String
  role : String
deriving DecidableEq, Repr

/-- User identity record (the fields `populate("user", "username email")` projects). -/
structure UserRec where
  id : String
  username : String
  email : String
deriving DecidableEq, Repr

/-- Order line item snapshot, from OrderItemSchema in src/models/Order.ts. -/
structure OrderItem where
  itemId : String
  name : String
  price : Rat
  quantity : Nat
deriving DecidableEq, Repr

/-- Order document, from OrderSchema in src/models/Order.ts. -/
structure Order where
  id : String
  user : String          -- ObjectId reference to the owning user
  items : List OrderItem
  totalAmount : Rat
  status : OrderStatus
  customerName : String
  customerPhone : String
  customerAddress : String
  createdAt : Nat
deriving DecidableEq, Repr

/-- Menu item document, from MenuItemSchema (src/unnamed/part_004). -/
structure MenuItem where
  id : String
  name : String
  price : Rat
  image : String
  description : String
  rating : Rat           -- running average
  ratingCount : Nat
  isAvailable : Bool
  createdAt : Nat
  updatedAt : Nat
deriving DecidableEq, Repr

/-- Notification document, from NotificationSchema / `createNotification`. -/
structure Notification where
  user : String
  orderId : String
  message : String
  ntype : NotifType
  read : Bool
deriving DecidableEq, Repr

/-- Rating document, from RatingSchema in src/models/Rating.ts
(compound-unique on (user, menuItem)). -/
structure RatingRec where
  user : String
  menuItem : String
  value : Rat
deriving DecidableEq, Repr

/-- The persistence store: one list per collection. -/
structure DB where
  users : List UserRec
  menuItems : List MenuItem
  orders : List Order
  notifications : List Notification
  ratings : List RatingRec
deriving DecidableEq, Repr

/-! ### Shared helpers -/

/-- `order._id.toString().slice(-6).toUpperCase()`. -/
def shortId (s : String) : String := (s.takeRight 6).toUpper

/-- `Order.findById` / first document whose `_id` matches. -/
def findOrder (db : DB) (oid : String) : Option Order :=
  db.orders.find? (fun o => o.id = oid)

/-- `MenuItem.findById`. -/
def findItem (db : DB) (iid : String) : Option MenuItem :=
  db.menuItems.find? (fun m => m.id = iid)

/-- lib/notifications `createNotification`: persists a notification; a failed save is
logged and swallowed (`return null`), never propagated — modelled by `ok = false`
simply leaving the collection unchanged. -/
def createNotification (db : DB) (ok : Bool) (userId orderId message : String)
    (t : NotifType) : DB :=
  if ok then
    { db with notifications :=
        db.notifications ++ [⟨userId, orderId, message, t, false⟩] }
  else db

/-- `Order.findByIdAndUpdate(id, { status })` / per-order `order.save()` after setting
`order.status`: rewrites the status of the documents whose id matches. -/
def updateOrderStatus (orders : List Order) (oid : String) (st : OrderStatus) :
    List Order :=
  orders.map (fun o => if o.id = oid then { o with status := st } else o)

/-- `order.items.some/find(item => item.itemId === id)`-style membership test used by
the `"items.itemId"` Mongo filters. -/
def orderReferencesItem (iid : String) (o : Order) : Bool :=
  o.items.any (fun li => li.itemId = iid)

/-- Insertion step for a stable descending sort (Mongo `sort({createdAt: -1})`). -/
def insertDesc {α : Type} (key : α → Nat) (x : α) : List α → List α
  | [] => [x]
  | y :: ys => if key y ≥ key x then y :: insertDesc key x ys else x :: y :: ys

/-- Stable descending sort by a `Nat` key (Mongo `sort({createdAt: -1})`). -/
def sortDesc {α : Type} (key : α → Nat) : List α → List α
  | [] => []
  | x :: xs => insertDesc key x (sortDesc key xs)

/-! ### Orders collection routes (src/app/api/orders/route.ts) -/

/-- `AUTO_CANCEL_MINUTES = 2`, in milliseconds. -/
def AUTO_CANCEL_MS : Nat := 2 * 60 * 1000

/-- One document's view of
`Order.updateMany({status: "pending", createdAt: {$lt: cancelBefore}}, {status: "cancelled"})`. -/
def sweepOrder (cancelBefore : Nat) (o : Order) : Order :=
  if o.status = .pending ∧ o.createdAt < cancelBefore then
    { o with status := .cancelled }
  else o

/-- An entry of the listing response: the serialized order, and for the admin branch
the `.populate("user", "username email")` result. -/
structure ListedOrder where
  order : Order
  userInfo : Option UserRec
deriving DecidableEq, Repr

/-- GET /api/orders: auth check, auto-cancel sweep of stale pending orders, then the
role-dependent listing (admin: all orders populated with user identity; user: only
their own orders), sorted by `createdAt` descending. -/
def GET_orders (db : DB) (now : Nat) (auth : Option Token) :
    Except ApiError (List ListedOrder) × DB :=
  match auth with
  | none => (.error .unauthorized, db)
  | some tok =>
    let cancelBefore := now - AUTO_CANCEL_MS
    let db' := { db with orders := db.orders.map (sweepOrder cancelBefore) }
    if tok.role = "admin" then
      (.ok ((sortDesc Order.createdAt db'.orders).map
        (fun o => ⟨o, db'.users.find? (fun u => u.id = o.user)⟩)), db')
    else
      (.ok ((sortDesc Order.createdAt
          (db'.orders.filter (fun o => o.user = tok.userId))).map
        (fun o => ⟨o, none⟩)), db')

/-- Request body of POST /api/orders. -/
structure OrderReq where
  items : List OrderItem
  customerName : String
  customerPhone : String
  customerAddress : String
deriving DecidableEq, Repr

/-- `items.reduce((sum, item) => sum + item.price * item.quantity, 0)`. -/
def orderTotal (items : List OrderItem) : Rat :=
  items.foldl (fun sum it => sum + it.price * (it.quantity : Rat)) 0

/-- POST /api/orders: auth check, non-empty cart, non-empty customer fields, total
computed from the submitted snapshots, order saved with status `pending`, then an
`order_placed` notification.  `newId` is the ObjectId Mongo mints for the document. -/
def POST_orders (db : DB) (now : Nat) (auth : Option Token) (req : OrderReq)
    (newId : String) (notifOk : Bool) : Except ApiError Order × DB :=
  match auth with
  | none => (.error .unauthorized, db)
  | some tok =>
    if req.items = [] then (.error .validation, db)   -- "Cart is empty", 400
    else if req.customerName = "" ∨ req.customerPhone = "" ∨ req.customerAddress = ""
    then (.error .validation, db)                     -- "Customer information is required"
    else
      let order : Order :=
        ⟨newId, tok.userId, req.items, orderTotal req.items, .pending,
          req.customerName, req.customerPhone, req.customerAddress, now⟩
      let db1 := { db with orders := db.orders ++ [order] }
      let db2 := createNotification db1 notifOk tok.userId newId
        ("Your order #" ++ shortId newId ++ " has been placed successfully.")
        .order_placed
      (.ok order, db2)

/-! ### Single-order routes (src/unnamed/part_010, second file: orders/[id]) -/

/-- The `["pending", "accepted", "rejected", "completed", "cancelled"].includes`
validation plus decoding of the requested status string. -/
def statusOfString (s : String) : Option OrderStatus :=
  if s = "pending" then some .pending
  else if s = "accepted" then some .accepted
  else if s = "rejected" then some .rejected
  else if s = "completed" then some .completed
  else if s = "cancelled" then some .cancelled
  else none

/-- The `switch (newStatus)` of the admin PATCH: notification category and message
suffix per target status; `pending` falls through with an empty message, so no
notification is created for it. -/
def transitionNotif : OrderStatus → Option (NotifType × String)
  | .accepted => some (.order_accepted, " has been accepted.")
  | .rejected => some (.order_rejected, " has been rejected.")
  | .completed => some (.order_completed, " has been completed.")
  | .cancelled => some (.order_cancelled, " has been cancelled.")
  | .pending => none

/-- PATCH /api/orders/[id] (admin force-transition): verifyAdmin, status-string
validation, `findByIdAndUpdate(id, {status}, {new: true})` with no check of the
current status, then the status-specific notification. -/
def PATCH_order (db : DB) (auth : Option Token) (oid : String) (newStatus : String)
    (notifOk : Bool) : Except ApiError Order × DB :=
  match auth with
  | none => (.error .unauthorized, db)
  | some tok =>
    if tok.role ≠ "admin" then (.error .forbidden, db)
    else
      match statusOfString newStatus with
      | none => (.error .validation, db)   -- "Valid status is required", 400
      | some st =>
        match findOrder db oid with
        | none => (.error .notFound, db)
        | some o =>
          let db1 := { db with orders := updateOrderStatus db.orders oid st }
          let db2 :=
            match transitionNotif st with
            | some (t, suffix) =>
                createNotification db1 notifOk o.user oid
                  ("Your order #" ++ shortId oid ++ suffix) t
            | none => db1
          (.ok { o with status := st }, db2)

/-- `BUFFER_TIME_MS = 5 * 60 * 1000`. -/
def BUFFER_TIME_MS : Nat := 5 * 60 * 1000

/-- PUT /api/orders/[id] (customer self-cancel): auth, existence, ownership,
not-rejected, not-already-cancelled, then the server-side 5-minute window check
(`timeElapsed > BUFFER_TIME_MS` fails); on success the order is saved with status
`cancelled` and an `order_cancelled` notification is created. -/
def PUT_order (db : DB) (now : Nat) (auth : Option Token) (oid : String)
    (notifOk : Bool) : Except ApiError Order × DB :=
  match auth with
  | none => (.error .unauthorized, db)
  | some tok =>
    match findOrder db oid with
    | none => (.error .notFound, db)
    | some o =>
      if o.user ≠ tok.userId then (.error .forbidden, db)
      else if o.status = .rejected then (.error .validation, db)
        -- "Cannot cancel a rejected order", 400
      else if o.status = .cancelled then (.error .validation, db)
        -- "Order is already cancelled", 400
      else if now - o.createdAt > BUFFER_TIME_MS then (.error .windowExpired, db)
      else
        let db1 := { db with orders := updateOrderStatus db.orders oid .cancelled }
        let db2 := createNotification db1 notifOk tok.userId oid
          ("Your order #" ++ shortId oid ++ " has been cancelled.") .order_cancelled
        (.ok { o with status := .cancelled }, db2)

/-! ### Menu item PATCH (src/unnamed/part_010, first file: menu/[id]) -/

/-- Request body of PATCH /api/menu/[id]; `none` stands for a field that is
`undefined` in the JSON body.  `price` is the already-`parseFloat`ed number (a
non-numeric payload, `NaN`, is rejected by the route's `isNaN` check and is outside
this embedding's numeric inputs); `rating`/`ratingCount` are the `Number(...)`
coercions the route applies verbatim. -/
structure MenuPatch where
  name : Option String := none
  price : Option Rat := none
  image : Option String := none
  description : Option String := none
  rating : Option Rat := none
  ratingCount : Option Nat := none
  isAvailable : Option Bool := none
deriving DecidableEq, Repr

/-- `MenuItem.findByIdAndUpdate(id, updateData, {new: true})` applied to one
document: each defined body field overwrites the stored one; mongoose
`timestamps: true` refreshes `updatedAt`. -/
def applyMenuPatch (p : MenuPatch) (now : Nat) (it : MenuItem) : MenuItem :=
  { it with
    name := p.name.getD it.name
    price := p.price.getD it.price
    image := p.image.getD it.image
    description := p.description.getD it.description
    rating := p.rating.getD it.rating
    ratingCount := p.ratingCount.getD it.ratingCount
    isAvailable := p.isAvailable.getD it.isAvailable
    updatedAt := now }

/-- The auto-cancellation notification message built in the PATCH loop. -/
def cancelMsg (orderShortId itemName : String) : String :=
  "Your order #" ++ orderShortId ++ " has been cancelled because the item \"" ++
    itemName ++ "\" is no longer available."

/-- `status: { $in: ["pending", "accepted"] }`. -/
def isActive (o : Order) : Bool :=
  o.status = .pending ∨ o.status = .accepted

/-- The `for (const order of activeOrders)` loop of the menu PATCH: each affected
order is saved with status `cancelled`, then one `order_cancelled` notification is
created for its owner, naming the item via the order's own line-item snapshot (or
the updated item's name as fallback).  `notifOk` is the per-order oracle for
whether the (best-effort, error-swallowing) notification save succeeds. -/
def cancelAffected (iid updatedName : String) (notifOk : String → Bool) :
    DB → List Order → DB
  | db, [] => db
  | db, o :: rest =>
    let db1 := { db with orders := updateOrderStatus db.orders o.id .cancelled }
    let itemName :=
      ((o.items.find? (fun li => li.itemId = iid)).map OrderItem.name).getD updatedName
    let db2 := createNotification db1 (notifOk o.id) o.user o.id
      (cancelMsg (shortId o.id) itemName) .order_cancelled
    cancelAffected iid updatedName notifOk db2 rest

/-- PATCH /api/menu/[id] (admin): verifyAdmin; field validations (non-empty name and
image strings, non-negative price); detection of an available→unavailable flip
(`wasAvailable` is `item?.isAvailable !== false`, hence `true` for a missing item);
`findByIdAndUpdate` (404 when absent); then, on a flip, the bulk cancellation of
every pending/accepted order referencing the item, with per-order notifications. -/
def PATCH_menu (db : DB) (now : Nat) (auth : Option Token) (iid : String)
    (p : MenuPatch) (notifOk : String → Bool) : Except ApiError MenuItem × DB :=
  match auth with
  | none => (.error .unauthorized, db)
  | some tok =>
    if tok.role ≠ "admin" then (.error .forbidden, db)
    else if p.name.any (fun s => s.trim = "") then (.error .validation, db)
      -- "Name must be a non-empty string"
    else if p.price.any (fun q => q < 0) then (.error .validation, db)
      -- "Price must be a valid positive number"
    else if p.image.any (fun s => s.trim = "") then (.error .validation, db)
      -- "Image must be a non-empty string"
    else
      let wasAvailable := ((findItem db iid).map MenuItem.isAvailable).getD true
      let isBeingMarkedUnavailable := p.isAvailable = some false ∧ wasAvailable
      match findItem db iid with
      | none => (.error .notFound, db)
      | some it =>
        let updated := applyMenuPatch p now it
        let newItems :=
          db.menuItems.map (fun m => if m.id = iid then applyMenuPatch p now m else m)
        let db1 := { db with menuItems := newItems }
        if isBeingMarkedUnavailable then
          let activeOrders := db1.orders.filter
            (fun o => isActive o ∧ orderReferencesItem iid o)
          (.ok updated, cancelAffected iid updated.name notifOk db1 activeOrders)
        else
          (.ok updated, db1)

/-! ### Menu GET with the 09:00 daily restoration (src/unnamed/part_009) -/

/-- The wall-clock readings GET /api/menu takes from one `new Date()`:
`Date.now()` in ms, `getHours()`, `getMinutes()`, and the ms timestamp of
`todayAt9AM` (`setHours(9, 0, 0, 0)` on the same date). -/
structure Clock where
  ms : Nat
  hour : Nat
  minute : Nat
  today9am : Nat
deriving DecidableEq, Repr

/-- One document's view of
`MenuItem.updateMany({isAvailable: false, updatedAt: {$lt: todayAt9AM}}, {isAvailable: true})`
(mongoose timestamps refresh `updatedAt` on the update). -/
def restoreItem (c : Clock) (it : MenuItem) : MenuItem :=
  if it.isAvailable = false ∧ it.updatedAt < c.today9am then
    { it with isAvailable := true, updatedAt := c.ms }
  else it

/-- GET /api/menu (public): when the clock reads 09:00 or later
(`currentHour > 9 || (currentHour === 9 && currentMinute >= 0)`), flips back to
available every item still marked unavailable since before today's 09:00; then
returns all items sorted by `createdAt` descending. -/
def GET_menu (db : DB) (c : Clock) : Except ApiError (List MenuItem) × DB :=
  let db' :=
    if c.hour > 9 ∨ (c.hour = 9 ∧ c.minute ≥ 0) then
      { db with menuItems := db.menuItems.map (restoreItem c) }
    else db
  (.ok (sortDesc MenuItem.createdAt db'.menuItems), db')

/-! ### Ratings (src/app/api/ratings/route.ts) -/

def RATING_MIN : Rat := 1
def RATING_MAX : Rat := 5

/-- All Rating documents for one menu item
(the `$match: { menuItem: id }` stage of the aggregation). -/
def ratingsFor (db : DB) (iid : String) : List RatingRec :=
  db.ratings.filter (fun r => r.menuItem = iid)

/-- `Number(avg.toFixed(2))`: round to 2 decimal places (ratings are positive, so
JS round-half-away-from-zero agrees with round-half-up here). -/
def round2 (q : Rat) : Rat := ((round (q * 100) : Int) : Rat) / 100

/-- `updateMenuItemAverages`: aggregates all Rating rows of the item ($avg and
count; 0/0 when there are none) and persists both fields on the menu item
(`findByIdAndUpdate`, with the mongoose `updatedAt` refresh).  Returns the updated
db together with the (rating, ratingCount) pair the route echoes back. -/
def updateMenuItemAverages (db : DB) (now : Nat) (iid : String) :
    DB × (Rat × Nat) :=
  let rs := ratingsFor db iid
  let rating :=
    if rs = [] then 0
    else round2 (((rs.map RatingRec.value).sum) / (rs.length : Rat))
  let ratingCount := rs.length
  let newItems :=
    db.menuItems.map (fun m =>
      if m.id = iid then
        { m with rating := rating, ratingCount := ratingCount, updatedAt := now }
      else m)
  let db' := { db with menuItems := newItems }
  (db', (rating, ratingCount))

/-- `Order.exists({user, "items.itemId": menuItemId})`: the caller has at least one
order, of any status, whose line items reference the menu item. -/
def hasOrderedItem (db : DB) (uid iid : String) : Bool :=
  db.orders.any (fun o => o.user = uid ∧ orderReferencesItem iid o)

/-- `Rating.findOneAndUpdate({user, menuItem}, {rating}, {upsert: true, ...})`:
update the existing (user, item) row if one exists (compound-unique index),
otherwise insert a new one. -/
def upsertRating (db : DB) (uid iid : String) (v : Rat) : DB :=
  if db.ratings.any (fun r => r.user = uid ∧ r.menuItem = iid) then
    { db with ratings := db.ratings.map (fun r =>
        if r.user = uid ∧ r.menuItem = iid then { r with value := v } else r) }
  else
    { db with ratings := db.ratings ++ [⟨uid, iid, v⟩] }

/-- POST /api/ratings: auth; role must be `"user"`; presence of both body fields;
range check `1 ≤ rating ≤ 5`; menu item existence; purchase-gating via
`Order.exists`; then the upsert and the average recomputation. -/
def POST_ratings (db : DB) (now : Nat) (auth : Option Token)
    (menuItemId : Option String) (ratingVal : Option Rat) :
    Except ApiError (Rat × Nat) × DB :=
  match auth with
  | none => (.error .unauthorized, db)
  | some tok =>
    if tok.role ≠ "user" then (.error .forbidden, db)
      -- "Only users can rate items", 403
    else
      match menuItemId, ratingVal with
      | none, _ => (.error .validation, db)  -- "menuItemId and rating are required"
      | _, none => (.error .validation, db)
      | some iid, some v =>
        if v < RATING_MIN ∨ RATING_MAX < v then (.error .rangeError, db)
          -- "Rating must be between 1 and 5", 400
        else
          match findItem db iid with
          | none => (.error .notFound, db)  -- "Menu item not found", 404
          | some _ =>
            if ¬ hasOrderedItem db tok.userId iid then (.error .forbidden, db)
              -- "You can only rate items you have ordered", 403 (NotEligibleError)
            else
              let db1 := upsertRating db tok.userId iid v
              let res := updateMenuItemAverages db1 now iid
              (.ok res.2, res.1)

/-! ### Helper lemmas about the embedding -/

theorem mem_insertDesc {α : Type} (key : α → Nat) (a x : α) (l : List α) :
    x ∈ insertDesc key a l ↔ x = a ∨ x ∈ l := by
  induction l with
  | nil => simp [insertDesc]
  | cons y ys ih =>
    by_cases h : key y ≥ key a
    · simp only [insertDesc, if_pos h, List.mem_cons, ih]
      tauto
    · simp only [insertDesc, if_neg h, List.mem_cons]

theorem mem_sortDesc {α : Type} (key : α → Nat) (x : α) (l : List α) :
    x ∈ sortDesc key l ↔ x ∈ l := by
  induction l with
  | nil => simp [sortDesc]
  | cons y ys ih =>
    simp only [sortDesc, mem_insertDesc, List.mem_cons, ih]

theorem find?_map_of_pred_inv {α : Type} (f : α → α) (p : α → Bool)
    (hp : ∀ a, p (f a) = p a) (l : List α) :
    (l.map f).find? p = (l.find? p).map f := by
  have hcomp : p ∘ f = p := funext hp
  rw [List.find?_map, hcomp]

/-- A status rewrite on an order that already carries that status is the identity. -/
theorem setStatus_self (o : Order) (st : OrderStatus) (h : o.status = st) :
    { o with status := st } = o := by
  cases o
  simp_all

theorem mem_updateOrderStatus (l : List Order) (oid : String) (st : OrderStatus)
    (o : Order) (h : o ∈ l) :
    (if o.id = oid then { o with status := st } else o) ∈ updateOrderStatus l oid st := by
  exact List.mem_map.mpr ⟨o, h, rfl⟩

theorem updateOrderStatus_mem_of_cancelled (l : List Order) (oid : String)
    (o : Order) (h : o ∈ l) (hst : o.status = .cancelled) :
    o ∈ updateOrderStatus l oid .cancelled := by
  have := mem_updateOrderStatus l oid .cancelled o h
  by_cases hid : o.id = oid
  · rwa [if_pos hid, setStatus_self o .cancelled hst] at this
  · rwa [if_neg hid] at this

/-- All order fields except `status` survive `updateOrderStatus`. -/
theorem updateOrderStatus_core (l : List Order) (oid : String) (st : OrderStatus)
    (o : Order) (h : o ∈ l) :
    ∃ o' ∈ updateOrderStatus l oid st, o'.id = o.id ∧ o'.user = o.user ∧
      o'.items = o.items ∧ o'.totalAmount = o.totalAmount ∧
      o'.customerName = o.customerName ∧ o'.customerPhone = o.customerPhone ∧
      o'.customerAddress = o.customerAddress ∧ o'.createdAt = o.createdAt := by
  refine ⟨_, mem_updateOrderStatus l oid st o h, ?_⟩
  by_cases hid : o.id = oid <;> simp [hid]

/-- Orders whose id is untouched by a round of `updateOrderStatus` keep their status. -/
theorem updateOrderStatus_status_of_ne (l : List Order) (tid : String)
    (st : OrderStatus) (oid : String) (hne : tid ≠ oid) (s : OrderStatus)
    (hall : ∀ x ∈ l, x.id = oid → x.status = s) :
    ∀ x ∈ updateOrderStatus l tid st, x.id = oid → x.status = s := by
  intro x hx hid
  obtain ⟨y, hy, rfl⟩ := List.mem_map.mp hx
  by_cases h : y.id = tid
  · rw [if_pos h] at hid ⊢
    exact absurd (h ▸ hid) (by simpa using hne)
  · rw [if_neg h] at hid ⊢
    exact hall y hy hid

/-! #### `cancelAffected` structure lemmas -/

/-- The notification document built for one auto-cancelled order in the menu PATCH loop. -/
def autoCancelNotif (iid updatedName : String) (o : Order) : Notification :=
  ⟨o.user, o.id,
    cancelMsg (shortId o.id)
      (((o.items.find? (fun li => li.itemId = iid)).map OrderItem.name).getD updatedName),
    .order_cancelled, false⟩

/-- The notifications the menu PATCH loop appends for a given affected-orders list
(one per order whose best-effort save succeeds). -/
def newNotifs (iid updatedName : String) (notifOk : String → Bool) :
    List Order → List Notification
  | [] => []
  | o :: rest =>
    (if notifOk o.id then [autoCancelNotif iid updatedName o] else []) ++
      newNotifs iid updatedName notifOk rest

theorem cancelAffected_users (iid nm : String) (nok : String → Bool) :
    ∀ (l : List Order) (db : DB),
      (cancelAffected iid nm nok db l).users = db.users := by
  intro l
  induction l with
  | nil => intro db; rfl
  | cons o rest ih =>
    intro db
    simp only [cancelAffected, ih, createNotification]
    split <;> rfl

theorem cancelAffected_menuItems (iid nm : String) (nok : String → Bool) :
    ∀ (l : List Order) (db : DB),
      (cancelAffected iid nm nok db l).menuItems = db.menuItems := by
  intro l
  induction l with
  | nil => intro db; rfl
  | cons o rest ih =>
    intro db
    simp only [cancelAffected, ih, createNotification]
    split <;> rfl

theorem cancelAffected_ratings (iid nm : String) (nok : String → Bool) :
    ∀ (l : List Order) (db : DB),
      (cancelAffected iid nm nok db l).ratings = db.ratings := by
  intro l
  induction l with
  | nil => intro db; rfl
  | cons o rest ih =>
    intro db
    simp only [cancelAffected, ih, createNotification]
    split <;> rfl

theorem cancelAffected_notifications (iid nm : String) (nok : String → Bool) :
    ∀ (l : List Order) (db : DB),
      (cancelAffected iid nm nok db l).notifications =
        db.notifications ++ newNotifs iid nm nok l := by
  intro l
  induction l with
  | nil => intro db; simp [cancelAffected, newNotifs]
  | cons o rest ih =>
    intro db
    simp only [cancelAffected, newNotifs, ih, createNotification]
    by_cases h : nok o.id
    · simp [h, autoCancelNotif, List.append_assoc]
    · simp [h]

/-- Every order listed as affected ends up cancelled, for every notification-failure
oracle: a notification failure never rolls the cancellation back. -/
theorem cancelAffected_cancels (iid nm : String) (nok : String → Bool) :
    ∀ (l : List Order) (db : DB) (o : Order), o ∈ l →
      (o ∈ db.orders ∨ { o with status := OrderStatus.cancelled } ∈ db.orders) →
      { o with status := OrderStatus.cancelled } ∈ (cancelAffected iid nm nok db l).orders := by
  intro l
  induction l with
  | nil => intro db o h; exact absurd h (List.not_mem_nil o)
  | cons a rest ih =>
    intro db o hmem hdb
    have hstep : ∀ x ∈ { db with orders := updateOrderStatus db.orders a.id .cancelled }.orders,
        x ∈ (cancelAffected iid nm nok
          (createNotification { db with orders := updateOrderStatus db.orders a.id .cancelled }
            (nok a.id) a.user a.id
            (cancelMsg (shortId a.id)
              (((a.items.find? (fun li => li.itemId = iid)).map OrderItem.name).getD nm))
            .order_cancelled) rest).orders → True := by
      intro _ _ _; trivial
    clear hstep
    rcases List.mem_cons.mp hmem with rfl | htail
    · -- the head order itself: its cancelled version appears after the first update
      have hc : { o with status := OrderStatus.cancelled } ∈
          updateOrderStatus db.orders o.id .cancelled := by
        rcases hdb with h | h
        · have := mem_updateOrderStatus db.orders o.id .cancelled o h
          rwa [if_pos rfl] at this
        · exact updateOrderStatus_mem_of_cancelled db.orders o.id _ h rfl
      -- carry it through the rest of the loop as an already-cancelled order
      have : ∀ (l' : List Order) (db' : DB) (x : Order), x.status = .cancelled →
          x ∈ db'.orders → x ∈ (cancelAffected iid nm nok db' l').orders := by
        intro l'
        induction l' with
        | nil => intro db' x _ hx; exact hx
        | cons b rest' ih' =>
          intro db' x hst hx
          exact ih' _ x hst (by
            simp only [cancelAffected, createNotification]
            split
            · exact updateOrderStatus_mem_of_cancelled db'.orders b.id x hx hst
            · exact updateOrderStatus_mem_of_cancelled db'.orders b.id x hx hst)
      simp only [cancelAffected, createNotification]
      split
      · exact this rest _ _ rfl hc
      · exact this rest _ _ rfl hc
    · -- a later order of the loop: the invariant survives the head's update
      apply ih _ o htail
      have hinv : o ∈ updateOrderStatus db.orders a.id .cancelled ∨
          { o with status := OrderStatus.cancelled } ∈
            updateOrderStatus db.orders a.id .cancelled := by
        rcases hdb with h | h
        · have := mem_updateOrderStatus db.orders a.id .cancelled o h
          by_cases hid : o.id = a.id
          · right; rwa [if_pos hid] at this
          · left; rwa [if_neg hid] at this
        · right; exact updateOrderStatus_mem_of_cancelled db.orders a.id _ h rfl
      simp only [cancelAffected, createNotification]
      split <;> exact hinv

/-- Every order of the database survives the loop with everything but its status intact. -/
theorem cancelAffected_preserves_core (iid nm : String) (nok : String → Bool) :
    ∀ (l : List Order) (db : DB) (o : Order), o ∈ db.orders →
      ∃ o' ∈ (cancelAffected iid nm nok db l).orders, o'.id = o.id ∧ o'.user = o.user ∧
        o'.items = o.items ∧ o'.totalAmount = o.totalAmount ∧
        o'.customerName = o.customerName ∧ o'.customerPhone = o.customerPhone ∧
        o'.customerAddress = o.customerAddress ∧ o'.createdAt = o.createdAt := by
  intro l
  induction l with
  | nil => intro db o h; exact ⟨o, h, rfl, rfl, rfl, rfl, rfl, rfl, rfl, rfl⟩
  | cons a rest ih =>
    intro db o h
    obtain ⟨o1, h1, e1, e2, e3, e4, e5, e6, e7, e8⟩ :=
      updateOrderStatus_core db.orders a.id .cancelled o h
    have h1' : o1 ∈ (createNotification
        { db with orders := updateOrderStatus db.orders a.id .cancelled } (nok a.id)
        a.user a.id
        (cancelMsg (shortId a.id)
          (((a.items.find? (fun li => li.itemId = iid)).map OrderItem.name).getD nm))
        .order_cancelled).orders := by
      simp only [createNotification]
      split <;> exact h1
    obtain ⟨o2, h2, f1, f2, f3, f4, f5, f6, f7, f8⟩ := ih _ o1 h1'
    exact ⟨o2, h2, f1.trans e1, f2.trans e2, f3.trans e3, f4.trans e4,
      f5.trans e5, f6.trans e6, f7.trans e7, f8.trans e8⟩

/-- Orders whose id is referenced by no loop entry keep their status through the loop. -/
theorem cancelAffected_status_of_ne (iid nm : String) (nok : String → Bool) :
    ∀ (l : List Order) (db : DB) (oid : String) (s : OrderStatus),
      (∀ a ∈ l, a.id ≠ oid) →
      (∀ x ∈ db.orders, x.id = oid → x.status = s) →
      ∀ x ∈ (cancelAffected iid nm nok db l).orders, x.id = oid → x.status = s := by
  intro l
  induction l with
  | nil => intro db oid s _ hall; exact hall
  | cons a rest ih =>
    intro db oid s hne hall
    apply ih _ oid s (fun b hb => hne b (List.mem_cons_of_mem a hb))
    intro x hx hid
    have hx' : x ∈ updateOrderStatus db.orders a.id .cancelled := by
      revert hx
      simp only [cancelAffected, createNotification]
      split <;> exact fun hx => hx
    exact updateOrderStatus_status_of_ne db.orders a.id .cancelled oid
      (hne a (List.mem_cons_self a rest)) s hall x hx' hid

theorem createNotification_orders (db : DB) (ok : Bool) (u oid m : String)
    (t : NotifType) : (createNotification db ok u oid m t).orders = db.orders := by
  unfold createNotification
  split <;> rfl

theorem createNotification_notifications (db : DB) (ok : Bool) (u oid m : String)
    (t : NotifType) : (createNotification db ok u oid m t).notifications =
      db.notifications ++ (if ok then [⟨u, oid, m, t, false⟩] else []) := by
  unfold createNotification
  split <;> simp_all

/-- The database after PATCH /api/menu/[id] has exactly one of three shapes: untouched
(error branches), item updated, or item updated plus the auto-cancellation loop. -/
theorem PATCH_menu_shape (db : DB) (now : Nat) (auth : Option Token) (iid : String)
    (p : MenuPatch) (nok : String → Bool) :
    (PATCH_menu db now auth iid p nok).2 = db ∨
    (∃ it, findItem db iid = some it ∧
      (PATCH_menu db now auth iid p nok).2 =
        { db with menuItems :=
            db.menuItems.map (fun m => if m.id = iid then applyMenuPatch p now m else m) }) ∨
    (∃ it, findItem db iid = some it ∧
      (PATCH_menu db now auth iid p nok).2 =
        cancelAffected iid (applyMenuPatch p now it).name nok
          { db with menuItems :=
              db.menuItems.map (fun m => if m.id = iid then applyMenuPatch p now m else m) }
          (db.orders.filter (fun o => isActive o ∧ orderReferencesItem iid o))) := by
  unfold PATCH_menu
  cases auth with
  | none => exact Or.inl rfl
  | some tok =>
    dsimp only
    split
    · exact Or.inl rfl
    split
    · exact Or.inl rfl
    split
    · exact Or.inl rfl
    split
    · exact Or.inl rfl
    split
    · exact Or.inl rfl
    rename_i it hit
    split
    · exact Or.inr (Or.inr ⟨it, hit, rfl⟩)
    · exact Or.inr (Or.inl ⟨it, hit, rfl⟩)

/-! ### Concrete sample data for witnesses and counterexamples -/

def tokAdmin : Token := ⟨"admin1", "admin"⟩

def tokU1 : Token := ⟨"u1", "user"⟩

def userAlice : UserRec := ⟨"u1", "alice", "alice@example.com"⟩

def li1 : OrderItem := ⟨"item1", "Latte", 10, 2⟩

def ordPending : Order := ⟨"ord1", "u1", [li1], 20, .pending, "Alice", "123", "Addr 1", 0⟩

def ordCompleted : Order := ⟨"ord2", "u1", [li1], 20, .completed, "Alice", "123", "Addr 1", 0⟩

def dbPending : DB := ⟨[userAlice], [], [ordPending], [], []⟩

def dbCompleted : DB := ⟨[userAlice], [], [ordCompleted], [], []⟩

def ordRejected : Order := ⟨"ord3", "u1", [li1], 20, .rejected, "Alice", "123", "Addr 1", 0⟩

def dbRejected : DB := ⟨[userAlice], [], [ordRejected], [], []⟩

/-! ### C1 -/

/-- C1 as stated is false at this input: the administrator transition endpoint
performs no source-state validation, so a `completed` (terminal) order is moved to
`accepted` by an admin PATCH. -/
theorem C1_counterexample :
    (findOrder dbCompleted "ord2").map Order.status = some .completed ∧
    (findOrder (PATCH_order dbCompleted (some tokAdmin) "ord2" "accepted" true).2
        "ord2").map Order.status = some .accepted := by
  decide

/-- C1 (amended): `status` only ever takes the five enumerated values (enforced by
the `OrderStatus` type of the embedding, mirroring the schema enum), and the
auto-expiry sweep, the availability-triggered cancellation, and the customer cancel
never change a terminal order's status (the customer cancel is blocked only for
`rejected`/`cancelled`); the administrator transition, however, is unconstrained and
can move an order out of any status, including terminal ones, and the customer
cancel can cancel a `completed` order inside the 5-minute window. -/
theorem C1_terminal_stability :
    (∀ (cb : Nat) (o : Order),
        (o.status = .rejected ∨ o.status = .completed ∨ o.status = .cancelled) →
        sweepOrder cb o = o) ∧
    (∀ (db : DB) (now : Nat) (auth : Option Token) (iid : String) (p : MenuPatch)
        (nok : String → Bool) (o : Order),
        (db.orders.map Order.id).Nodup → o ∈ db.orders →
        (o.status = .rejected ∨ o.status = .completed ∨ o.status = .cancelled) →
        ∀ x ∈ (PATCH_menu db now auth iid p nok).2.orders,
          x.id = o.id → x.status = o.status) ∧
    (∀ (db : DB) (now : Nat) (tok : Token) (oid : String) (nok : Bool) (o : Order),
        findOrder db oid = some o →
        (o.status = .rejected ∨ o.status = .cancelled) →
        (PUT_order db now (some tok) oid nok).2 = db ∧
        ∀ v, (PUT_order db now (some tok) oid nok).1 ≠ .ok v) := by
  refine ⟨?_, ?_, ?_⟩
  · intro cb o h
    unfold sweepOrder
    rcases h with h | h | h <;> simp [h]
  · intro db now auth iid p nok o hnd hmem hterm x hx hid
    have hall : ∀ y ∈ db.orders, y.id = o.id → y.status = o.status := by
      intro y hy hyid
      have : y = o := List.inj_on_of_nodup_map hnd hy hmem hyid
      rw [this]
    rcases PATCH_menu_shape db now auth iid p nok with hs | ⟨it, _, hs⟩ | ⟨it, _, hs⟩
    · rw [hs] at hx
      exact hall x hx hid
    · rw [hs] at hx
      exact hall x hx hid
    · rw [hs] at hx
      refine cancelAffected_status_of_ne iid (applyMenuPatch p now it).name nok _ _
        o.id o.status ?_ ?_ x hx hid
      · intro a ha hcontra
        have hmf := List.mem_filter.mp ha
        have hao : a = o := List.inj_on_of_nodup_map hnd hmf.1 hmem hcontra
        have hact : isActive a = true := (of_decide_eq_true hmf.2).1
        rw [hao] at hact
        simp only [isActive, decide_eq_true_eq] at hact
        rcases hterm with h | h | h <;> rcases hact with h' | h' <;> simp_all
      · exact hall
  · intro db now tok oid nok o hfind hterm
    unfold PUT_order
    rw [hfind]
    rcases hterm with h | h
    · by_cases how : o.user ≠ tok.userId
      · simp [how]
      · simp [how, h]
    · by_cases how : o.user ≠ tok.userId
      · simp [how]
      · by_cases hrej : o.status = .rejected
        · simp [how, hrej]
        · simp [how, hrej, h]

/-- Witness for C1's amended theorem at concrete inputs. -/
theorem C1_witness :
    sweepOrder 120000 ordCompleted = ordCompleted ∧
    (PUT_order dbRejected 1000 (some tokU1) "ord3" true).2 = dbRejected := by
  constructor
  · exact C1_terminal_stability.1 120000 ordCompleted (by decide)
  · exact (C1_terminal_stability.2.2 dbRejected 1000 tokU1 "ord3" true ordRejected
      (by decide) (by decide)).1

/-! ### C2 -/

/-- C2: for an existing order, a customer-initiated cancel by its owner succeeds iff
the elapsed time since creation is at most 5 minutes and the status is neither
`rejected` nor `cancelled`; on success the order (and the stored document) becomes
`cancelled`; past the window the request fails with the window-expired error and the
database is unchanged; a non-owner's request fails with the ownership error and the
database is unchanged. -/
theorem C2_customer_cancel (db : DB) (now : Nat) (tok : Token) (oid : String)
    (nok : Bool) (o : Order) (h : findOrder db oid = some o) :
    (o.user = tok.userId →
      ((∃ v, (PUT_order db now (some tok) oid nok).1 = .ok v) ↔
        (o.status ≠ .rejected ∧ o.status ≠ .cancelled ∧
          now - o.createdAt ≤ BUFFER_TIME_MS))) ∧
    (o.user = tok.userId → o.status ≠ .rejected → o.status ≠ .cancelled →
      now - o.createdAt > BUFFER_TIME_MS →
      PUT_order db now (some tok) oid nok = (.error .windowExpired, db)) ∧
    (o.user ≠ tok.userId → PUT_order db now (some tok) oid nok = (.error .forbidden, db)) ∧
    (∀ v, (PUT_order db now (some tok) oid nok).1 = .ok v →
      v = { o with status := .cancelled } ∧
      (findOrder (PUT_order db now (some tok) oid nok).2 oid).map Order.status =
        some .cancelled) := by
  have hids : ∀ a : Order,
      ((fun x => decide (x.id = oid))
        ((fun x => if x.id = oid then { x with status := OrderStatus.cancelled } else x) a)) =
        ((fun x => decide (x.id = oid)) a) := by
    intro a
    by_cases ha : a.id = oid <;> simp [ha]
  have hoid : o.id = oid := by
    have := List.find?_some h
    simpa using this
  refine ⟨?_, ?_, ?_, ?_⟩
  · intro hown
    unfold PUT_order
    rw [h]
    by_cases hrej : o.status = .rejected
    · simp [hown, hrej]
    · by_cases hcan : o.status = .cancelled
      · simp [hown, hrej, hcan]
      · by_cases hwin : now - o.createdAt > BUFFER_TIME_MS
        · simp [hown, hrej, hcan, hwin]
          omega
        · simp [hown, hrej, hcan, hwin]
          omega
  · intro hown hrej hcan hwin
    unfold PUT_order
    rw [h]
    simp [hown, hrej, hcan, hwin]
  · intro hown
    unfold PUT_order
    rw [h]
    simp [hown]
  · intro v hv
    unfold PUT_order at hv ⊢
    rw [h] at hv ⊢
    by_cases hown : o.user ≠ tok.userId
    · simp [hown] at hv
    · by_cases hrej : o.status = .rejected
      · simp [hown, hrej] at hv
      · by_cases hcan : o.status = .cancelled
        · simp [hown, hrej, hcan] at hv
        · by_cases hwin : now - o.createdAt > BUFFER_TIME_MS
          · simp [hown, hrej, hcan, hwin] at hv
          · simp [hown, hrej, hcan, hwin] at hv ⊢
            constructor
            · simpa using hv.symm
            · unfold findOrder
              rw [createNotification_orders]
              refine ⟨{ o with status := .cancelled }, ?_, rfl⟩
              show (updateOrderStatus db.orders oid .cancelled).find?
                (fun x => x.id = oid) = some { o with status := .cancelled }
              unfold updateOrderStatus
              rw [find?_map_of_pred_inv _ _ hids db.orders]
              unfold findOrder at h
              rw [h]
              simp [hoid]

/-- Witness for C2 at concrete inputs: a 1-minute-old pending order is cancelled by
its owner; at 5 minutes + 1 ms the same request fails with the window error and the
database is untouched. -/
theorem C2_witness :
    (∃ v, (PUT_order dbPending 60000 (some tokU1) "ord1" true).1 = .ok v) ∧
    PUT_order dbPending 300001 (some tokU1) "ord1" true =
      (.error .windowExpired, dbPending) := by
  constructor
  · exact ((C2_customer_cancel dbPending 60000 tokU1 "ord1" true ordPending
      (by decide)).1 (by decide)).mpr (by decide)
  · exact (C2_customer_cancel dbPending 300001 tokU1 "ord1" true ordPending
      (by decide)).2.1 (by decide) (by decide) (by decide) (by decide)

/-! ### C3 -/

/-- C3 as stated is false at this input: the sweep filter is strict
(`createdAt < now - 2min`), so a listing read at exactly `now = createdAt + 2min`
returns the pending order still `pending`, not `cancelled`. -/
theorem C3_counterexample :
    ordPending.status = .pending ∧
    120000 = ordPending.createdAt + AUTO_CANCEL_MS ∧
    (GET_orders dbPending 120000 (some tokAdmin)).1 =
      .ok [⟨ordPending, some userAlice⟩] := by
  decide

/-- C3 (amended): for every pending order strictly older than 2 minutes
(`now > createdAt + 2min`), an order-listing read first applies the bulk expiry
update and then returns the order with status `cancelled`, both to an administrator
and to the owning customer; the cancelled version is also what is stored. -/
theorem C3_expiry_sweep (db : DB) (now : Nat) (tok : Token) (o : Order)
    (hmem : o ∈ db.orders) (hst : o.status = .pending)
    (hold : o.createdAt + AUTO_CANCEL_MS < now) :
    (tok.role = "admin" →
      ∃ l, (GET_orders db now (some tok)).1 = .ok l ∧
        ∃ e ∈ l, e.order = { o with status := .cancelled }) ∧
    (tok.role ≠ "admin" → tok.userId = o.user →
      ∃ l, (GET_orders db now (some tok)).1 = .ok l ∧
        ∃ e ∈ l, e.order = { o with status := .cancelled }) ∧
    { o with status := .cancelled } ∈ (GET_orders db now (some tok)).2.orders := by
  have hsw : sweepOrder (now - AUTO_CANCEL_MS) o = { o with status := .cancelled } := by
    unfold sweepOrder
    rw [if_pos ⟨hst, by omega⟩]
  have hmem' : { o with status := .cancelled } ∈
      db.orders.map (sweepOrder (now - AUTO_CANCEL_MS)) :=
    List.mem_map.mpr ⟨o, hmem, hsw⟩
  refine ⟨?_, ?_, ?_⟩
  · intro hrole
    simp only [GET_orders]
    rw [if_pos hrole]
    refine ⟨_, rfl, ?_⟩
    have hm2 : { o with status := .cancelled } ∈
        sortDesc Order.createdAt (db.orders.map (sweepOrder (now - AUTO_CANCEL_MS))) :=
      (mem_sortDesc _ _ _).mpr hmem'
    exact ⟨_, List.mem_map.mpr ⟨_, hm2, rfl⟩, rfl⟩
  · intro hrole hown
    simp only [GET_orders]
    rw [if_neg hrole]
    refine ⟨_, rfl, ?_⟩
    have hm2 : { o with status := .cancelled } ∈
        sortDesc Order.createdAt
          ((db.orders.map (sweepOrder (now - AUTO_CANCEL_MS))).filter
            (fun x => x.user = tok.userId)) := by
      refine (mem_sortDesc _ _ _).mpr ?_
      refine List.mem_filter.mpr ⟨hmem', ?_⟩
      simp [hown.symm]
    exact ⟨_, List.mem_map.mpr ⟨_, hm2, rfl⟩, rfl⟩
  · by_cases hrole : tok.role = "admin" <;> simp [GET_orders, hrole, hmem']

/-- Witness for C3's amended theorem: one millisecond past the 2-minute boundary the
pending order is returned cancelled to the administrator. -/
theorem C3_witness :
    ∃ l, (GET_orders dbPending 120001 (some tokAdmin)).1 = .ok l ∧
      ∃ e ∈ l, e.order = { ordPending with status := .cancelled } := by
  exact (C3_expiry_sweep dbPending 120001 tokAdmin ordPending (by decide) (by decide)
    (by decide)).1 (by decide)

/-! ### C9 -/

/-- `sweepOrder` never changes the owning user reference. -/
theorem sweepOrder_user (cb : Nat) (o : Order) : (sweepOrder cb o).user = o.user := by
  unfold sweepOrder
  split <;> rfl

/-- C9: an order-listing request by an administrator returns every order (post-sweep)
with the owning user's identity attached, and nothing else; a request by a
non-administrator returns exactly the (post-sweep) orders owned by the caller —
never an order owned by another user. -/
theorem C9_listing_scope (db : DB) (now : Nat) (tok : Token) :
    (tok.role = "admin" →
      ∃ l, (GET_orders db now (some tok)).1 = .ok l ∧
        (∀ o ∈ db.orders, ∃ e ∈ l, e.order = sweepOrder (now - AUTO_CANCEL_MS) o) ∧
        (∀ e ∈ l, e.userInfo = db.users.find? (fun u => u.id = e.order.user)) ∧
        (∀ e ∈ l, ∃ o ∈ db.orders, e.order = sweepOrder (now - AUTO_CANCEL_MS) o)) ∧
    (tok.role ≠ "admin" →
      ∃ l, (GET_orders db now (some tok)).1 = .ok l ∧
        (∀ e ∈ l, e.order.user = tok.userId) ∧
        (∀ o ∈ db.orders, o.user = tok.userId →
          ∃ e ∈ l, e.order = sweepOrder (now - AUTO_CANCEL_MS) o)) := by
  constructor
  · intro hrole
    simp only [GET_orders]
    rw [if_pos hrole]
    refine ⟨_, rfl, ?_, ?_, ?_⟩
    · intro o hmem
      have hm : sweepOrder (now - AUTO_CANCEL_MS) o ∈
          sortDesc Order.createdAt (db.orders.map (sweepOrder (now - AUTO_CANCEL_MS))) :=
        (mem_sortDesc _ _ _).mpr (List.mem_map.mpr ⟨o, hmem, rfl⟩)
      exact ⟨_, List.mem_map.mpr ⟨_, hm, rfl⟩, rfl⟩
    · intro e he
      obtain ⟨x, _, rfl⟩ := List.mem_map.mp he
      rfl
    · intro e he
      obtain ⟨x, hx, rfl⟩ := List.mem_map.mp he
      obtain ⟨o, ho, rfl⟩ := List.mem_map.mp ((mem_sortDesc _ _ _).mp hx)
      exact ⟨o, ho, rfl⟩
  · intro hrole
    simp only [GET_orders]
    rw [if_neg hrole]
    refine ⟨_, rfl, ?_, ?_⟩
    · intro e he
      obtain ⟨x, hx, rfl⟩ := List.mem_map.mp he
      have := (List.mem_filter.mp ((mem_sortDesc _ _ _).mp hx)).2
      simpa using this
    · intro o hmem hown
      have hm : sweepOrder (now - AUTO_CANCEL_MS) o ∈
          sortDesc Order.createdAt
            ((db.orders.map (sweepOrder (now - AUTO_CANCEL_MS))).filter
              (fun x => x.user = tok.userId)) := by
        refine (mem_sortDesc _ _ _).mpr (List.mem_filter.mpr ?_)
        refine ⟨List.mem_map.mpr ⟨o, hmem, rfl⟩, ?_⟩
        simp [sweepOrder_user, hown]
      exact ⟨_, List.mem_map.mpr ⟨_, hm, rfl⟩, rfl⟩

/-- Witness for C9: the admin listing over a one-order database. -/
theorem C9_witness :
    ∃ l, (GET_orders dbPending 0 (some tokAdmin)).1 = .ok l ∧
      (∀ o ∈ dbPending.orders, ∃ e ∈ l, e.order = sweepOrder (0 - AUTO_CANCEL_MS) o) ∧
      (∀ e ∈ l, e.userInfo = dbPending.users.find? (fun u => u.id = e.order.user)) ∧
      (∀ e ∈ l, ∃ o ∈ dbPending.orders, e.order = sweepOrder (0 - AUTO_CANCEL_MS) o) :=
  (C9_listing_scope dbPending 0 tokAdmin).1 (by decide)

/-! ### C10 -/

/-- C10: the auto-expiry sweep is silent: an order-listing read never touches the
notifications collection, and the sweep rewrites exactly the status field (pending
and strictly older than 2 minutes becomes cancelled) leaving every other order field
unchanged; by contrast the customer-cancel path, when it cancels, appends an
`order_cancelled` notification. -/
theorem C10_sweep_silent :
    (∀ (db : DB) (now : Nat) (auth : Option Token),
        (GET_orders db now auth).2.notifications = db.notifications) ∧
    (∀ (db : DB) (now : Nat) (tok : Token),
        (GET_orders db now (some tok)).2.orders =
          db.orders.map (sweepOrder (now - AUTO_CANCEL_MS))) ∧
    (∀ (cb : Nat) (o : Order),
        (sweepOrder cb o).id = o.id ∧ (sweepOrder cb o).user = o.user ∧
        (sweepOrder cb o).items = o.items ∧
        (sweepOrder cb o).totalAmount = o.totalAmount ∧
        (sweepOrder cb o).customerName = o.customerName ∧
        (sweepOrder cb o).customerPhone = o.customerPhone ∧
        (sweepOrder cb o).customerAddress = o.customerAddress ∧
        (sweepOrder cb o).createdAt = o.createdAt ∧
        (sweepOrder cb o).status =
          (if o.status = .pending ∧ o.createdAt < cb then .cancelled else o.status)) ∧
    (∀ (db : DB) (now : Nat) (tok : Token) (oid : String) (v : Order),
        (PUT_order db now (some tok) oid true).1 = .ok v →
        (PUT_order db now (some tok) oid true).2.notifications =
          db.notifications ++
            [⟨tok.userId, oid, "Your order #" ++ shortId oid ++ " has been cancelled.",
              .order_cancelled, false⟩]) := by
  refine ⟨?_, ?_, ?_, ?_⟩
  · intro db now auth
    cases auth with
    | none => rfl
    | some tok => by_cases h : tok.role = "admin" <;> simp [GET_orders, h]
  · intro db now tok
    by_cases h : tok.role = "admin" <;> simp [GET_orders, h]
  · intro cb o
    unfold sweepOrder
    by_cases h : o.status = .pending ∧ o.createdAt < cb <;> simp [h]
  · intro db now tok oid v hv
    unfold PUT_order at hv
    cases hfind : findOrder db oid with
    | none => rw [hfind] at hv; simp at hv
    | some o =>
      rw [hfind] at hv
      by_cases hown : o.user ≠ tok.userId
      · simp [hown] at hv
      · by_cases hrej : o.status = .rejected
        · simp [hown, hrej] at hv
        · by_cases hcan : o.status = .cancelled
          · simp [hown, hrej, hcan] at hv
          · by_cases hwin : now - o.createdAt > BUFFER_TIME_MS
            · simp [hown, hrej, hcan, hwin] at hv
            · simp [PUT_order, hfind, hown, hrej, hcan, hwin,
                createNotification_notifications]

/-- Witness for C10's customer-cancel conjunct at a concrete input. -/
theorem C10_witness :
    (PUT_order dbPending 60000 (some tokU1) "ord1" true).2.notifications =
      dbPending.notifications ++
        [⟨tokU1.userId, "ord1", "Your order #" ++ shortId "ord1" ++ " has been cancelled.",
          .order_cancelled, false⟩] :=
  C10_sweep_silent.2.2.2 dbPending 60000 tokU1 "ord1"
    { ordPending with status := .cancelled } (by decide)

/-! ### C8 -/

theorem foldl_add_map {α : Type} (f : α → Rat) :
    ∀ (l : List α) (a : Rat), l.foldl (fun s it => s + f it) a = a + (l.map f).sum := by
  intro l
  induction l with
  | nil => intro a; simp
  | cons x xs ih =>
    intro a
    simp only [List.foldl_cons, List.map_cons, List.sum_cons, ih]
    ring

/-- The JS `reduce` over the submitted snapshots equals the sum of price × quantity. -/
theorem orderTotal_eq_sum (items : List OrderItem) :
    orderTotal items = (items.map (fun it => it.price * (it.quantity : Rat))).sum := by
  unfold orderTotal
  rw [foldl_add_map]
  simp

/-- C8: order creation stores the submitted line items verbatim and computes the
total as Σ snapshot price × quantity; and no menu PATCH (price or name edit,
availability flip included) ever changes any existing order's line items or total. -/
theorem C8_total_snapshot :
    (∀ (db : DB) (now : Nat) (tok : Token) (req : OrderReq) (newId : String)
        (nok : Bool),
        req.items ≠ [] → req.customerName ≠ "" → req.customerPhone ≠ "" →
        req.customerAddress ≠ "" →
        ∃ ord, (POST_orders db now (some tok) req newId nok).1 = .ok ord ∧
          ord.items = req.items ∧
          ord.totalAmount =
            (req.items.map (fun it => it.price * (it.quantity : Rat))).sum) ∧
    (∀ (db : DB) (now : Nat) (auth : Option Token) (iid : String) (p : MenuPatch)
        (nok : String → Bool) (o : Order), o ∈ db.orders →
        ∃ o' ∈ (PATCH_menu db now auth iid p nok).2.orders,
          o'.id = o.id ∧ o'.items = o.items ∧ o'.totalAmount = o.totalAmount) := by
  constructor
  · intro db now tok req newId nok hitems hname hphone haddr
    have hok : (POST_orders db now (some tok) req newId nok).1 =
        .ok ⟨newId, tok.userId, req.items, orderTotal req.items, .pending,
          req.customerName, req.customerPhone, req.customerAddress, now⟩ := by
      simp [POST_orders, hitems, hname, hphone, haddr]
    exact ⟨_, hok, rfl, orderTotal_eq_sum req.items⟩
  · intro db now auth iid p nok o hmem
    rcases PATCH_menu_shape db now auth iid p nok with hs | ⟨it, _, hs⟩ | ⟨it, _, hs⟩
    · rw [hs]
      exact ⟨o, hmem, rfl, rfl, rfl⟩
    · rw [hs]
      exact ⟨o, hmem, rfl, rfl, rfl⟩
    · rw [hs]
      obtain ⟨o', h1, h2, _, h3, h4, _⟩ :=
        cancelAffected_preserves_core iid (applyMenuPatch p now it).name nok
          (db.orders.filter (fun x => isActive x ∧ orderReferencesItem iid x))
          { db with menuItems :=
              db.menuItems.map (fun m => if m.id = iid then applyMenuPatch p now m else m) }
          o hmem
      exact ⟨o', h1, h2, h3, h4⟩

def reqSample : OrderReq :=
  ⟨[⟨"item1", "Latte", 10, 2⟩, ⟨"item2", "Mocha", 5, 1⟩], "Alice", "123", "Addr 1"⟩

/-- Witness for C8: the spec's round-trip example — items
[(price = 10.00, qty = 2), (price = 5.00, qty = 1)] yield total = 25.00. -/
theorem C8_witness :
    ∃ ord, (POST_orders dbPending 0 (some tokU1) reqSample "ord9" true).1 = .ok ord ∧
      ord.items = reqSample.items ∧ ord.totalAmount = 25 := by
  obtain ⟨ord, h1, h2, h3⟩ := C8_total_snapshot.1 dbPending 0 tokU1 reqSample "ord9"
    true (by decide) (by decide) (by decide) (by decide)
  refine ⟨ord, h1, h2, ?_⟩
  rw [h3]
  norm_num [reqSample]

/-! ### C5 -/

/-- Applying the 09:00 restoration twice with the same daily boundary is the same as
applying it once. -/
theorem restoreItem_idem (c c' : Clock) (h : c'.today9am = c.today9am)
    (x : MenuItem) : restoreItem c' (restoreItem c x) = restoreItem c x := by
  unfold restoreItem
  by_cases hx : x.isAvailable = false ∧ x.updatedAt < c.today9am
  · rw [if_pos hx]
    simp
  · rw [if_neg hx, if_neg (by rw [h]; exact hx)]

/-- C5: a menu read at or after 09:00 restores every item still unavailable since
before today's 09:00 boundary (returning and storing it available); a read before
09:00 changes nothing; and the restoration is idempotent within the same day. -/
theorem C5_daily_restore (db : DB) (c c' : Clock) (it : MenuItem) :
    (it ∈ db.menuItems → it.isAvailable = false → it.updatedAt < c.today9am →
      9 ≤ c.hour →
      ∃ l, (GET_menu db c).1 = .ok l ∧
        { it with isAvailable := true, updatedAt := c.ms } ∈ l ∧
        { it with isAvailable := true, updatedAt := c.ms } ∈
          (GET_menu db c).2.menuItems) ∧
    (c.hour < 9 →
      (GET_menu db c).2 = db ∧
      (GET_menu db c).1 = .ok (sortDesc MenuItem.createdAt db.menuItems)) ∧
    (9 ≤ c.hour → 9 ≤ c'.hour → c'.today9am = c.today9am →
      (GET_menu (GET_menu db c).2 c').2 = (GET_menu db c).2) := by
  refine ⟨?_, ?_, ?_⟩
  · intro hmem hunav hold hhour
    have hcond : c.hour > 9 ∨ (c.hour = 9 ∧ c.minute ≥ 0) := by omega
    have hrest : restoreItem c it = { it with isAvailable := true, updatedAt := c.ms } := by
      unfold restoreItem
      rw [if_pos ⟨hunav, hold⟩]
    simp only [GET_menu, if_pos hcond]
    refine ⟨_, rfl, ?_, ?_⟩
    · exact (mem_sortDesc _ _ _).mpr (List.mem_map.mpr ⟨it, hmem, hrest⟩)
    · exact List.mem_map.mpr ⟨it, hmem, hrest⟩
  · intro hhour
    have hcond : ¬(c.hour > 9 ∨ (c.hour = 9 ∧ c.minute ≥ 0)) := by omega
    simp only [GET_menu, if_neg hcond]
    constructor <;> trivial
  · intro hhour hhour' htoday
    have hcond : c.hour > 9 ∨ (c.hour = 9 ∧ c.minute ≥ 0) := by omega
    have hcond' : c'.hour > 9 ∨ (c'.hour = 9 ∧ c'.minute ≥ 0) := by omega
    simp only [GET_menu, if_pos hcond, if_pos hcond']
    congr 1
    rw [List.map_map]
    exact List.map_congr_left (fun x _ => restoreItem_idem c c' htoday x)

def itemStale : MenuItem := ⟨"item1", "Latte", 10, "img", "", 0, 0, false, 0, 100⟩

def dbMenu : DB := ⟨[], [itemStale], [], [], []⟩

def clock9 : Clock := ⟨5000, 9, 0, 200⟩

/-- Witness for C5: an item unavailable since before today's 09:00 is restored by a
read at 09:00 sharp. -/
theorem C5_witness :
    ∃ l, (GET_menu dbMenu clock9).1 = .ok l ∧
      { itemStale with isAvailable := true, updatedAt := clock9.ms } ∈ l ∧
      { itemStale with isAvailable := true, updatedAt := clock9.ms } ∈
        (GET_menu dbMenu clock9).2.menuItems :=
  (C5_daily_restore dbMenu clock9 clock9 itemStale).1 (by decide) (by decide)
    (by decide) (by decide)

/-! ### C4 -/

theorem mem_newNotifs (iid nm : String) (nok : String → Bool) (l : List Order)
    (o : Order) (ho : o ∈ l) (hok : nok o.id = true) :
    autoCancelNotif iid nm o ∈ newNotifs iid nm nok l := by
  induction l with
  | nil => exact absurd ho (List.not_mem_nil o)
  | cons a rest ih =>
    rcases List.mem_cons.mp ho with rfl | htail
    · simp [newNotifs, hok]
    · rcases List.mem_cons.mp ho with rfl | _
      · simp [newNotifs, hok]
      · simp only [newNotifs, List.mem_append]
        exact Or.inr (ih htail)

theorem countP_newNotifs (iid nm : String) (nok : String → Bool) (oid : String)
    (l : List Order) (hok : ∀ a ∈ l, nok a.id = true) :
    (newNotifs iid nm nok l).countP
        (fun n => n.orderId = oid ∧ n.ntype = .order_cancelled) =
      l.countP (fun a => a.id = oid) := by
  induction l with
  | nil => simp [newNotifs]
  | cons a rest ih =>
    have ha : nok a.id = true := hok a (List.mem_cons_self a rest)
    simp only [newNotifs, ha, if_pos, List.countP_append, List.countP_cons]
    rw [ih (fun b hb => hok b (List.mem_cons_of_mem a hb))]
    by_cases hid : a.id = oid
    · simp [autoCancelNotif, hid, List.countP_nil]
      omega
    · simp [autoCancelNotif, hid, List.countP_nil]

theorem countP_id_eq_one (l : List Order) (hnd : (l.map Order.id).Nodup)
    (o : Order) (ho : o ∈ l) :
    l.countP (fun a => a.id = o.id) = 1 := by
  have h1 : l.countP (fun a => a.id = o.id) = (l.map Order.id).count o.id := by
    rw [List.count, List.countP_map]
    apply List.countP_congr
    intro a _
    simp [Function.comp, beq_iff_eq]
  rw [h1]
  exact List.count_eq_one_of_mem hnd (List.mem_map.mpr ⟨o, ho, rfl⟩)

/-- C4: when an admin PATCH flips an existing, currently available menu item to
unavailable, every order in `pending`/`accepted` status whose line items reference
that item is transitioned to `cancelled` — for every notification-failure oracle,
so a failed best-effort notification never undoes a cancellation — and when the
notification saves succeed, exactly one `order_cancelled` notification naming the
item (via `autoCancelNotif`/`cancelMsg`) is added per affected order. -/
theorem C4_availability_cancellation (db : DB) (now : Nat) (tok : Token)
    (iid : String) (p : MenuPatch) (nok : String → Bool) (it : MenuItem)
    (hrole : tok.role = "admin")
    (hv1 : p.name.any (fun s => s.trim = "") = false)
    (hv2 : p.price.any (fun q => q < 0) = false)
    (hv3 : p.image.any (fun s => s.trim = "") = false)
    (hitem : findItem db iid = some it)
    (havail : it.isAvailable = true)
    (hp : p.isAvailable = some false) :
    (∀ o ∈ db.orders, isActive o = true → orderReferencesItem iid o = true →
      { o with status := .cancelled } ∈
        (PATCH_menu db now (some tok) iid p nok).2.orders) ∧
    ((db.orders.map Order.id).Nodup → (∀ s, nok s = true) →
      ∀ o ∈ db.orders, isActive o = true → orderReferencesItem iid o = true →
        autoCancelNotif iid (applyMenuPatch p now it).name o ∈
          (PATCH_menu db now (some tok) iid p nok).2.notifications ∧
        (PATCH_menu db now (some tok) iid p nok).2.notifications.countP
            (fun n => n.orderId = o.id ∧ n.ntype = .order_cancelled) =
          db.notifications.countP
            (fun n => n.orderId = o.id ∧ n.ntype = .order_cancelled) + 1) := by
  have hflip : (PATCH_menu db now (some tok) iid p nok).2 =
      cancelAffected iid (applyMenuPatch p now it).name nok
        { db with menuItems :=
            db.menuItems.map (fun m => if m.id = iid then applyMenuPatch p now m else m) }
        (db.orders.filter (fun o => isActive o ∧ orderReferencesItem iid o)) := by
    simp [PATCH_menu, hrole, hv1, hv2, hv3, hitem, hp, havail]
  constructor
  · intro o hmem hact href
    rw [hflip]
    apply cancelAffected_cancels
    · exact List.mem_filter.mpr ⟨hmem, by simp [hact, href]⟩
    · exact Or.inl hmem
  · intro hnd hok o hmem hact href
    have hmemf : o ∈ db.orders.filter (fun x => isActive x ∧ orderReferencesItem iid x) :=
      List.mem_filter.mpr ⟨hmem, by simp [hact, href]⟩
    have hnots : (PATCH_menu db now (some tok) iid p nok).2.notifications =
        db.notifications ++
          newNotifs iid (applyMenuPatch p now it).name nok
            (db.orders.filter (fun x => isActive x ∧ orderReferencesItem iid x)) := by
      rw [hflip, cancelAffected_notifications]
    constructor
    · rw [hnots]
      exact List.mem_append.mpr (Or.inr
        (mem_newNotifs _ _ nok _ o hmemf (hok o.id)))
    · rw [hnots, List.countP_append]
      congr 1
      rw [countP_newNotifs _ _ nok o.id _ (fun a _ => hok a.id)]
      apply countP_id_eq_one
      · exact List.Nodup.sublist ((List.filter_sublist db.orders).map Order.id) hnd
      · exact hmemf

def itemAvail : MenuItem := ⟨"item1", "Latte", 10, "img", "", 0, 0, true, 0, 0⟩

def ordAccepted : Order := ⟨"ord4", "u1", [li1], 20, .accepted, "Alice", "123", "Addr 1", 0⟩

def dbFlip : DB := ⟨[userAlice], [itemAvail], [ordAccepted], [], []⟩

/-- Witness for C4: marking the item unavailable cancels the accepted order that
references it and records exactly one `order_cancelled` notification for it. -/
theorem C4_witness :
    { ordAccepted with status := .cancelled } ∈
      (PATCH_menu dbFlip 999 (some tokAdmin) "item1" { isAvailable := some false }
        (fun _ => true)).2.orders ∧
    (PATCH_menu dbFlip 999 (some tokAdmin) "item1" { isAvailable := some false }
        (fun _ => true)).2.notifications.countP
      (fun n => n.orderId = "ord4" ∧ n.ntype = .order_cancelled) = 1 := by
  have h := C4_availability_cancellation dbFlip 999 tokAdmin "item1"
    { isAvailable := some false } (fun _ => true) itemAvail (by decide) (by decide)
    (by decide) (by decide) (by decide) (by decide) (by decide)
  constructor
  · exact h.1 ordAccepted (by decide) (by decide) (by decide)
  · have h2 := (h.2 (by decide) (fun _ => rfl) ordAccepted (by decide) (by decide)
      (by decide)).2
    simpa using h2

/-! ### C7 -/

/-- Modelled from the spec's words (§3, C7): every menu item's stored `rating`
equals the arithmetic mean of all existing Rating records for that item (0 when
there are none, matching the schema default) and its stored `ratingCount` equals
the number of those records.  This is the spec-side definition, to be compared
with what the code maintains. -/
def specRatingInvariant (db : DB) : Prop :=
  ∀ it ∈ db.menuItems,
    it.rating = (if ratingsFor db it.id = [] then 0
      else ((ratingsFor db it.id).map RatingRec.value).sum /
        ((ratingsFor db it.id).length : Rat)) ∧
    it.ratingCount = (ratingsFor db it.id).length

/-- C7 as stated is false at this input: the admin menu PATCH passes a
client-supplied `rating` straight into the stored field, so one PATCH with
`rating = 4` on an item having no Rating records breaks the mean invariant. -/
theorem C7_counterexample :
    specRatingInvariant dbFlip ∧
    ¬ specRatingInvariant
      (PATCH_menu dbFlip 1 (some tokAdmin) "item1" { rating := some 4 }
        (fun _ => true)).2 := by
  unfold specRatingInvariant
  decide

theorem menuMap_find? (l : List MenuItem) (iid : String) (f : MenuItem → MenuItem)
    (hf : ∀ m, (f m).id = m.id) :
    (l.map (fun m => if m.id = iid then f m else m)).find? (fun x => x.id = iid) =
      (l.find? (fun x => x.id = iid)).map (fun m => if m.id = iid then f m else m) := by
  apply find?_map_of_pred_inv
  intro a
  by_cases h : a.id = iid <;> simp [h, hf a]

/-- The document `updateMenuItemAverages` persists for an existing item. -/
theorem findItem_after_update (db : DB) (now : Nat) (iid : String) (it : MenuItem)
    (hitem : findItem db iid = some it) :
    findItem (updateMenuItemAverages db now iid).1 iid = some
      { it with
        rating := if ratingsFor db iid = [] then 0
          else round2 (((ratingsFor db iid).map RatingRec.value).sum /
            ((ratingsFor db iid).length : Rat)),
        ratingCount := (ratingsFor db iid).length,
        updatedAt := now } := by
  have hid : it.id = iid := by simpa using List.find?_some hitem
  unfold findItem at hitem ⊢
  unfold updateMenuItemAverages
  dsimp only
  rw [menuMap_find? db.menuItems iid
    (fun m =>
      { m with
        rating := if ratingsFor db iid = [] then 0
          else round2 (((ratingsFor db iid).map RatingRec.value).sum /
            ((ratingsFor db iid).length : Rat)),
        ratingCount := (ratingsFor db iid).length,
        updatedAt := now }) (fun m => rfl), hitem]
  simp [hid]

/-- C7 (amended): the Rating Aggregator's recomputation (`updateMenuItemAverages`,
run on every rating write) stores, for the targeted item, the arithmetic mean of
its Rating records rounded to 2 decimals (0 when there are none) and their exact
count, leaving the Rating records themselves untouched; the invariant claimed by
C7 is not maintained by every writer of the fields, since the admin menu PATCH can
set `rating`/`ratingCount` to arbitrary client-supplied values, and the stored
average is the rounded mean, not the exact mean. -/
theorem C7_rounded_mean (db : DB) (now : Nat) (iid : String) (it : MenuItem)
    (hitem : findItem db iid = some it) :
    ∃ it', findItem (updateMenuItemAverages db now iid).1 iid = some it' ∧
      it'.rating = (if ratingsFor db iid = [] then 0
        else round2 (((ratingsFor db iid).map RatingRec.value).sum /
          ((ratingsFor db iid).length : Rat))) ∧
      it'.ratingCount = (ratingsFor db iid).length ∧
      (updateMenuItemAverages db now iid).1.ratings = db.ratings :=
  ⟨_, findItem_after_update db now iid it hitem, rfl, rfl, rfl⟩

def dbRated : DB :=
  ⟨[], [itemAvail], [], [],
    [⟨"u1", "item1", 5⟩, ⟨"u2", "item1", 4⟩, ⟨"u3", "item1", 4⟩]⟩

/-- Witness for C7's amended theorem: ratings 5, 4, 4 store average 4.33 (the
rounded mean — not the exact mean 13/3) and count 3. -/
theorem C7_witness :
    ∃ it', findItem (updateMenuItemAverages dbRated 7 "item1").1 "item1" = some it' ∧
      it'.rating = 433/100 ∧ it'.ratingCount = 3 := by
  obtain ⟨it', h1, h2, h3, _⟩ := C7_rounded_mean dbRated 7 "item1" itemAvail (by decide)
  refine ⟨it', h1, ?_, ?_⟩
  · rw [h2, if_neg (by decide)]
    norm_num [ratingsFor, dbRated, round2, round_eq, List.filter]
  · rw [h3]
    decide

/-! ### C6 -/

theorem upsertRating_orders (db : DB) (u iid : String) (v : Rat) :
    (upsertRating db u iid v).orders = db.orders := by
  unfold upsertRating
  split <;> rfl

theorem upsertRating_menuItems (db : DB) (u iid : String) (v : Rat) :
    (upsertRating db u iid v).menuItems = db.menuItems := by
  unfold upsertRating
  split <;> rfl

theorem upsertRating_ratings_insert (db : DB) (u iid : String) (v : Rat)
    (hnew : ∀ r ∈ db.ratings, ¬(r.user = u ∧ r.menuItem = iid)) :
    (upsertRating db u iid v).ratings = db.ratings ++ [⟨u, iid, v⟩] := by
  unfold upsertRating
  split
  · rename_i h
    rw [List.any_eq_true] at h
    obtain ⟨r, hr, hc⟩ := h
    exact absurd (of_decide_eq_true hc) (hnew r hr)
  · rfl

theorem ratingsFor_insert (db : DB) (u iid : String) (v : Rat)
    (hnew : ∀ r ∈ db.ratings, ¬(r.user = u ∧ r.menuItem = iid)) :
    ratingsFor (upsertRating db u iid v) iid = ratingsFor db iid ++ [⟨u, iid, v⟩] := by
  unfold ratingsFor
  rw [upsertRating_ratings_insert db u iid v hnew, List.filter_append]
  simp

/-- A successful rating POST is exactly upsert-then-recompute. -/
theorem POST_ratings_success (db : DB) (now : Nat) (u iid : String) (v : Rat)
    (it : MenuItem) (hitem : findItem db iid = some it)
    (h1 : 1 ≤ v) (h5 : v ≤ 5)
    (hord : hasOrderedItem db u iid = true) :
    (POST_ratings db now (some ⟨u, "user"⟩) (some iid) (some v)).2 =
      (updateMenuItemAverages (upsertRating db u iid v) now iid).1 := by
  have hcond : ¬(v < RATING_MIN ∨ RATING_MAX < v) := by
    rw [RATING_MIN, RATING_MAX]
    push_neg
    exact ⟨h1, h5⟩
  simp [POST_ratings, hitem, hord, hcond]

/-- The fresh-rating records inserted for a submission sequence. -/
def lrec (iid : String) (l : List (String × Rat)) : List RatingRec :=
  l.map (fun pr => ⟨pr.1, iid, pr.2⟩)

/-- One rating POST per (user, value) pair, as issued by distinct authenticated
customers against the same item. -/
def postRatings (now : Nat) (iid : String) : DB → List (String × Rat) → DB
  | db, [] => db
  | db, (u, v) :: rest =>
      postRatings now iid
        (POST_ratings db now (some ⟨u, "user"⟩) (some iid) (some v)).2 rest

theorem postRatings_spec (now : Nat) (iid : String) :
    ∀ (l : List (String × Rat)) (db : DB) (it : MenuItem),
      findItem db iid = some it →
      (l.map Prod.fst).Nodup →
      (∀ pr ∈ l, 1 ≤ pr.2 ∧ pr.2 ≤ 5) →
      (∀ pr ∈ l, hasOrderedItem db pr.1 iid = true) →
      (∀ pr ∈ l, ∀ r ∈ db.ratings, r.user = pr.1 → ¬ r.menuItem = iid) →
      (postRatings now iid db l).orders = db.orders ∧
      (postRatings now iid db l).ratings = db.ratings ++ lrec iid l ∧
      (l ≠ [] →
        ∃ it', findItem (postRatings now iid db l) iid = some it' ∧
          it'.rating = round2
            ((((ratingsFor db iid ++ lrec iid l).map RatingRec.value).sum) /
              (((ratingsFor db iid ++ lrec iid l).length : Rat))) ∧
          it'.ratingCount = (ratingsFor db iid ++ lrec iid l).length) := by
  intro l
  induction l with
  | nil =>
    intro db it hitem _ _ _ _
    refine ⟨rfl, by simp [postRatings, lrec], fun h => absurd rfl h⟩
  | cons pr rest ih =>
    intro db it hitem hnd hrange hord hnew
    obtain ⟨u, v⟩ := pr
    -- the head POST succeeds and is upsert-then-recompute
    have hnewu : ∀ r ∈ db.ratings, ¬(r.user = u ∧ r.menuItem = iid) := by
      intro r hr hc
      exact hnew (u, v) (List.mem_cons_self _ _) r hr hc.1 hc.2
    have hpost : (POST_ratings db now (some ⟨u, "user"⟩) (some iid) (some v)).2 =
        (updateMenuItemAverages (upsertRating db u iid v) now iid).1 :=
      POST_ratings_success db now u iid v it hitem
        (hrange (u, v) (List.mem_cons_self _ _)).1
        (hrange (u, v) (List.mem_cons_self _ _)).2
        (hord (u, v) (List.mem_cons_self _ _))
    have hchain : postRatings now iid db ((u, v) :: rest) =
        postRatings now iid
          ((updateMenuItemAverages (upsertRating db u iid v) now iid).1) rest := by
      simp only [postRatings, hpost]
    -- the intermediate database after the head POST
    set db2 := (updateMenuItemAverages (upsertRating db u iid v) now iid).1 with hdb2
    have horders2 : db2.orders = db.orders := by
      rw [hdb2]
      show (upsertRating db u iid v).orders = db.orders
      exact upsertRating_orders db u iid v
    have hrat2 : db2.ratings = db.ratings ++ [⟨u, iid, v⟩] := by
      rw [hdb2]
      show (upsertRating db u iid v).ratings = db.ratings ++ [⟨u, iid, v⟩]
      exact upsertRating_ratings_insert db u iid v hnewu
    have hT1 : ratingsFor (upsertRating db u iid v) iid =
        ratingsFor db iid ++ [⟨u, iid, v⟩] := ratingsFor_insert db u iid v hnewu
    have hitem1 : findItem (upsertRating db u iid v) iid = some it := by
      unfold findItem
      rw [upsertRating_menuItems]
      exact hitem
    have hitem2 : findItem db2 iid = some
        { it with
          rating := if ratingsFor (upsertRating db u iid v) iid = [] then 0
            else round2
              (((ratingsFor (upsertRating db u iid v) iid).map RatingRec.value).sum /
                ((ratingsFor (upsertRating db u iid v) iid).length : Rat)),
          ratingCount := (ratingsFor (upsertRating db u iid v) iid).length,
          updatedAt := now } :=
      findItem_after_update (upsertRating db u iid v) now iid it hitem1
    have hT2 : ratingsFor db2 iid = ratingsFor db iid ++ [⟨u, iid, v⟩] := by
      unfold ratingsFor
      rw [hrat2, List.filter_append]
      simp
    -- the inductive hypothesis applies to db2
    have ihres := ih db2 _ hitem2 (by simpa using (List.nodup_cons.mp hnd).2)
      (fun q hq => hrange q (List.mem_cons_of_mem _ hq))
      (fun q hq => by
        unfold hasOrderedItem
        rw [horders2]
        exact hord q (List.mem_cons_of_mem _ hq))
      (fun q hq r hr hru => by
        rw [hrat2] at hr
        rcases List.mem_append.mp hr with hr' | hr'
        · exact hnew q (List.mem_cons_of_mem _ hq) r hr' hru
        · have : r = ⟨u, iid, v⟩ := by simpa using hr'
          have hune : u ≠ q.1 := by
            have := (List.nodup_cons.mp hnd).1
            intro he
            exact this (he ▸ List.mem_map.mpr ⟨q, hq, rfl⟩)
          rw [this] at hru
          exact absurd hru hune)
    obtain ⟨ihorders, ihratings, ihfinal⟩ := ihres
    refine ⟨?_, ?_, ?_⟩
    · rw [hchain, ihorders, horders2]
    · rw [hchain, ihratings, hrat2]
      simp [lrec, List.append_assoc]
    · intro _
      by_cases hrest : rest = []
      · subst hrest
        refine ⟨_, by rw [hchain]; exact hitem2, ?_, ?_⟩
        · show (if ratingsFor (upsertRating db u iid v) iid = [] then (0 : Rat)
            else round2
              (((ratingsFor (upsertRating db u iid v) iid).map RatingRec.value).sum /
                ((ratingsFor (upsertRating db u iid v) iid).length : Rat))) = _
          rw [hT1, if_neg (by simp)]
          simp [lrec]
        · show (ratingsFor (upsertRating db u iid v) iid).length = _
          rw [hT1]
          simp [lrec]
      · obtain ⟨it', hf, hr, hc⟩ := ihfinal hrest
        refine ⟨it', by rw [hchain]; exact hf, ?_, ?_⟩
        · rw [hr, hT2]
          simp [lrec, List.append_assoc]
        · rw [hc, hT2]
          simp [lrec, List.append_assoc]

/-- C6: a rating POST by a customer for an existing item with an in-range value
succeeds iff the caller has at least one order (of any status) referencing the
item; after N distinct eligible users rate an unrated item with values r1..rN, the
item stores the mean of r1..rN rounded to 2 decimals and count N; an out-of-range
value is rejected with the range error; a nonexistent item yields not-found. -/
theorem C6_rating_aggregation :
    (∀ (db : DB) (now : Nat) (tok : Token) (iid : String) (v : Rat) (it : MenuItem),
        tok.role = "user" → findItem db iid = some it → 1 ≤ v → v ≤ 5 →
        ((∃ res, (POST_ratings db now (some tok) (some iid) (some v)).1 = .ok res) ↔
          hasOrderedItem db tok.userId iid = true)) ∧
    (∀ (db : DB) (now : Nat) (iid : String) (it : MenuItem)
        (l : List (String × Rat)),
        findItem db iid = some it → ratingsFor db iid = [] →
        (l.map Prod.fst).Nodup → l ≠ [] →
        (∀ pr ∈ l, 1 ≤ pr.2 ∧ pr.2 ≤ 5) →
        (∀ pr ∈ l, hasOrderedItem db pr.1 iid = true) →
        ∃ it', findItem (postRatings now iid db l) iid = some it' ∧
          it'.rating = round2 ((l.map Prod.snd).sum / (l.length : Rat)) ∧
          it'.ratingCount = l.length) ∧
    (∀ (db : DB) (now : Nat) (tok : Token) (iid : String) (v : Rat),
        tok.role = "user" → (v < 1 ∨ 5 < v) →
        POST_ratings db now (some tok) (some iid) (some v) = (.error .rangeError, db)) ∧
    (∀ (db : DB) (now : Nat) (tok : Token) (iid : String) (v : Rat),
        tok.role = "user" → 1 ≤ v → v ≤ 5 → findItem db iid = none →
        POST_ratings db now (some tok) (some iid) (some v) = (.error .notFound, db)) := by
  refine ⟨?_, ?_, ?_, ?_⟩
  · intro db now tok iid v it hrole hitem h1 h5
    have hcond : ¬(v < RATING_MIN ∨ RATING_MAX < v) := by
      rw [RATING_MIN, RATING_MAX]
      push_neg
      exact ⟨h1, h5⟩
    cases hord : hasOrderedItem db tok.userId iid with
    | true =>
      simp only [iff_true]
      have hok : (POST_ratings db now (some tok) (some iid) (some v)).1 =
          .ok (updateMenuItemAverages (upsertRating db tok.userId iid v) now iid).2 := by
        simp [POST_ratings, hrole, hitem, hcond, hord]
      exact ⟨_, hok⟩
    | false =>
      constructor
      · rintro ⟨res, hres⟩
        simp [POST_ratings, hrole, hitem, hcond, hord] at hres
      · intro hcontra
        simp at hcontra
  · intro db now iid it l hitem hempty hnd hne hrange hord
    have hnew : ∀ pr ∈ l, ∀ r ∈ db.ratings, r.user = pr.1 → ¬ r.menuItem = iid := by
      intro pr _ r hr _ hmi
      have hrmem : r ∈ ratingsFor db iid := List.mem_filter.mpr ⟨hr, by simp [hmi]⟩
      rw [hempty] at hrmem
      exact absurd hrmem (List.not_mem_nil r)
    obtain ⟨_, _, hfinal⟩ := postRatings_spec now iid l db it hitem hnd hrange hord hnew
    obtain ⟨it', hf, hr, hc⟩ := hfinal hne
    refine ⟨it', hf, ?_, ?_⟩
    · rw [hr, hempty]
      simp only [List.nil_append, lrec, List.map_map]
      rw [show List.map (RatingRec.value ∘ fun pr => (⟨pr.1, iid, pr.2⟩ : RatingRec)) l
          = l.map Prod.snd from List.map_congr_left (fun pr _ => rfl),
        List.length_map]
    · rw [hc, hempty]
      simp [lrec]
  · intro db now tok iid v hrole hout
    have hcond : v < RATING_MIN ∨ RATING_MAX < v := by
      rw [RATING_MIN, RATING_MAX]
      exact hout
    simp [POST_ratings, hrole, hcond]
  · intro db now tok iid v hrole h1 h5 hnone
    have hcond : ¬(v < RATING_MIN ∨ RATING_MAX < v) := by
      rw [RATING_MIN, RATING_MAX]
      push_neg
      exact ⟨h1, h5⟩
    simp [POST_ratings, hrole, hcond, hnone]

def ordU2 : Order := ⟨"ord5", "u2", [li1], 20, .completed, "Bob", "1", "A", 0⟩

def ordU3 : Order := ⟨"ord6", "u3", [li1], 20, .rejected, "Carl", "1", "A", 0⟩

def dbEligible : DB := ⟨[], [itemAvail], [ordPending, ordU2, ordU3], [], []⟩

/-- Witness for C6: three distinct purchasers rate 5, 4, 4; the item stores
average 4.33 and count 3. -/
theorem C6_witness :
    ∃ it', findItem
        (postRatings 9 "item1" dbEligible [("u1", 5), ("u2", 4), ("u3", 4)])
        "item1" = some it' ∧
      it'.rating = 433/100 ∧ it'.ratingCount = 3 := by
  obtain ⟨it', h1, h2, h3⟩ := C6_rating_aggregation.2.1 dbEligible 9 "item1" itemAvail
    [("u1", 5), ("u2", 4), ("u3", 4)] (by decide) (by decide) (by decide) (by decide)
    (by decide) (by decide)
  refine ⟨it', h1, ?_, ?_⟩
  · rw [h2]
    norm_num [round2, round_eq]
  · rw [h3]
    decide

end Cafe
